import Mathlib

/-!
Shallow embedding of the prospect-profile storage subsystem of the
`pregame` repository (files `backend/src/data/prospect_profile.py`,
`backend/src/data/profile_storage.py`, `backend/src/data/profile_manager.py`).

Modelling conventions:
* Python `datetime` values are modelled as abstract instants `Nat`;
  `isoformat`/`fromisoformat` are mutually inverse on datetimes, so the
  serialized form carries the same `Nat`.
* Python `dict`s (insertion ordered, unique string keys) are modelled as
  association lists with in-place update (`assocSet`) and deletion
  (`assocDel`).
* Python `set` results of `search_profiles` are modelled as `Finset String`
  (the Python function returns `list(results)` in unspecified order).
* File I/O always succeeds in the model (the claims are about the data
  semantics, not about the OS failing); `json.dump`/`json.load` of a
  profile document is modelled by storing the `ProfileDict` value itself.
  A corrupt document is a `ProfileDict` whose enum strings fail to parse,
  which makes `from_dict` fail exactly as the Python constructor raises.
* The `last_updated` timestamp of the index file and the storage-stats
  block of the metadata file are bookkeeping only and are omitted.
-/

namespace Pregame

/-- `ProspectType` enum from `prospect_profile.py`. -/
inductive ProspectType
  | company | individual | entrepreneur | investor | partner | client | other
  deriving DecidableEq, Repr

/-- The `.value` string of a `ProspectType` member. -/
def ProspectType.value : ProspectType → String
  | .company => "company"
  | .individual => "individual"
  | .entrepreneur => "entrepreneur"
  | .investor => "investor"
  | .partner => "partner"
  | .client => "client"
  | .other => "other"

/-- The Python enum constructor `ProspectType(s)`: raises on an unknown
string, modelled as `none`. -/
def ProspectType.ofString : String → Option ProspectType
  | "company" => some .company
  | "individual" => some .individual
  | "entrepreneur" => some .entrepreneur
  | "investor" => some .investor
  | "partner" => some .partner
  | "client" => some .client
  | "other" => some .other
  | _ => none

/-- `RelevanceScore` enum from `prospect_profile.py`. -/
inductive RelevanceScore
  | high | medium | low | unscored
  deriving DecidableEq, Repr

/-- The `.value` string of a `RelevanceScore` member. -/
def RelevanceScore.value : RelevanceScore → String
  | .high => "High"
  | .medium => "Medium"
  | .low => "Low"
  | .unscored => "Unscored"

/-- The Python enum constructor `RelevanceScore(s)`. -/
def RelevanceScore.ofString : String → Option RelevanceScore
  | "High" => some .high
  | "Medium" => some .medium
  | "Low" => some .low
  | "Unscored" => some .unscored
  | _ => none

/-- `ProspectStatus` enum from `prospect_profile.py`. -/
inductive ProspectStatus
  | discovered | qualified | contacted | engaged | converted | rejected | archived
  deriving DecidableEq, Repr

/-- The `.value` string of a `ProspectStatus` member. -/
def ProspectStatus.value : ProspectStatus → String
  | .discovered => "discovered"
  | .qualified => "qualified"
  | .contacted => "contacted"
  | .engaged => "engaged"
  | .converted => "converted"
  | .rejected => "rejected"
  | .archived => "archived"

/-- The Python enum constructor `ProspectStatus(s)`. -/
def ProspectStatus.ofString : String → Option ProspectStatus
  | "discovered" => some .discovered
  | "qualified" => some .qualified
  | "contacted" => some .contacted
  | "engaged" => some .engaged
  | "converted" => some .converted
  | "rejected" => some .rejected
  | "archived" => some .archived
  | _ => none

/-- `ContactInfo` dataclass. Its fields are already JSON-representable, so
the same structure serves in the serialized document. -/
structure ContactInfo where
  email : Option String := none
  phone : Option String := none
  linkedin : Option String := none
  website : Option String := none
  twitter : Option String := none
  other : List (String × String) := []
  deriving DecidableEq, Repr

/-- `GoalAlignment` dataclass. -/
structure GoalAlignment where
  relevance_score : RelevanceScore := .unscored
  fit_reasons : List String := []
  potential_value : String := "To be determined"
  approach_priority : String := "Medium"
  alignment_notes : String := ""
  deriving DecidableEq, Repr

/-- `DiscoveryMetadata` dataclass; `discovery_date` is a datetime. -/
structure DiscoveryMetadata where
  discovery_date : Nat := 0
  source_query : String := ""
  search_context : String := ""
  company_goal : String := ""
  discovering_company : String := ""
  discovery_session_id : String := ""
  deriving DecidableEq, Repr

/-- One interaction record as appended by `add_interaction` (a Python dict
with fixed keys). -/
structure Interaction where
  timestamp : Nat
  itype : String
  content : String
  outcome : String
  user : String
  deriving DecidableEq, Repr

/-- One note record as appended by `add_note`. -/
structure NoteEntry where
  timestamp : Nat
  category : String
  content : String
  user : String
  deriving DecidableEq, Repr

/-- `ProspectProfile` dataclass (the in-memory object). -/
structure ProspectProfile where
  profile_id : String
  name : String := ""
  prospect_type : ProspectType := .other
  business_description : String := ""
  industry : String := ""
  location : String := ""
  company_size : String := ""
  company_stage : String := ""
  contact_info : ContactInfo := {}
  goal_alignment : GoalAlignment := {}
  discovery_metadata : DiscoveryMetadata := {}
  recent_activities : List String := []
  pain_points : List String := []
  buying_signals : List String := []
  budget_indicators : List String := []
  decision_makers : List String := []
  status : ProspectStatus := .discovered
  interactions : List Interaction := []
  notes : List NoteEntry := []
  tags : List String := []
  opportunity_description : String := ""
  estimated_value : String := ""
  timeline_indicators : String := ""
  competitor_analysis : String := ""
  created_at : Nat := 0
  updated_at : Nat := 0
  version : Nat := 1
  deriving DecidableEq, Repr

/-- Constructing `ProspectProfile()` with a fresh uuid `pid` at instant
`now` (all dataclass defaults). -/
def mkProfile (pid : String) (now : Nat) : ProspectProfile :=
  { profile_id := pid
    discovery_metadata := { discovery_date := now }
    created_at := now
    updated_at := now }

/-- `ProspectProfile.add_interaction`: appends a record, bumps
`updated_at` and `version`. -/
def ProspectProfile.add_interaction (p : ProspectProfile)
    (itype content outcome : String) (now : Nat) : ProspectProfile :=
  { p with
    interactions := p.interactions ++
      [{ timestamp := now, itype := itype, content := content,
         outcome := outcome, user := "system" }]
    updated_at := now
    version := p.version + 1 }

/-- `ProspectProfile.add_note`: appends a note record, bumps `updated_at`
and `version`. -/
def ProspectProfile.add_note (p : ProspectProfile)
    (note category : String) (now : Nat) : ProspectProfile :=
  { p with
    notes := p.notes ++
      [{ timestamp := now, category := category, content := note,
         user := "system" }]
    updated_at := now
    version := p.version + 1 }

/-- `ProspectProfile.update_status`: sets the status, bumps `updated_at`
and `version`. -/
def ProspectProfile.update_status (p : ProspectProfile)
    (new_status : ProspectStatus) (now : Nat) : ProspectProfile :=
  { p with status := new_status, updated_at := now, version := p.version + 1 }

/-- `ProspectProfile.add_tag`: appends the tag and bumps
`updated_at`/`version` only when the tag is not already present. -/
def ProspectProfile.add_tag (p : ProspectProfile) (tag : String) (now : Nat) :
    ProspectProfile :=
  if tag ∈ p.tags then p
  else { p with tags := p.tags ++ [tag], updated_at := now,
                version := p.version + 1 }

/-- The serialized goal-alignment sub-dict: the relevance score is its
`.value` string. -/
structure GoalAlignmentDict where
  relevance_score : String
  fit_reasons : List String
  potential_value : String
  approach_priority : String
  alignment_notes : String
  deriving DecidableEq, Repr

/-- The serialized discovery-metadata sub-dict (`discovery_date` as an
isoformat-encoded instant). -/
structure DiscoveryMetadataDict where
  discovery_date : Nat
  source_query : String
  search_context : String
  company_goal : String
  discovering_company : String
  discovery_session_id : String
  deriving DecidableEq, Repr

/-- The JSON document produced by `ProspectProfile.to_dict` (enum fields
as their `.value` strings, datetimes isoformat-encoded). -/
structure ProfileDict where
  profile_id : String
  name : String
  prospect_type : String
  business_description : String
  industry : String
  location : String
  company_size : String
  company_stage : String
  contact_info : ContactInfo
  goal_alignment : GoalAlignmentDict
  discovery_metadata : DiscoveryMetadataDict
  recent_activities : List String
  pain_points : List String
  buying_signals : List String
  budget_indicators : List String
  decision_makers : List String
  status : String
  interactions : List Interaction
  notes : List NoteEntry
  tags : List String
  opportunity_description : String
  estimated_value : String
  timeline_indicators : String
  competitor_analysis : String
  created_at : Nat
  updated_at : Nat
  version : Nat
  deriving DecidableEq, Repr

/-- `ProspectProfile.to_dict`. -/
def to_dict (p : ProspectProfile) : ProfileDict :=
  { profile_id := p.profile_id
    name := p.name
    prospect_type := p.prospect_type.value
    business_description := p.business_description
    industry := p.industry
    location := p.location
    company_size := p.company_size
    company_stage := p.company_stage
    contact_info := p.contact_info
    goal_alignment :=
      { relevance_score := p.goal_alignment.relevance_score.value
        fit_reasons := p.goal_alignment.fit_reasons
        potential_value := p.goal_alignment.potential_value
        approach_priority := p.goal_alignment.approach_priority
        alignment_notes := p.goal_alignment.alignment_notes }
    discovery_metadata :=
      { discovery_date := p.discovery_metadata.discovery_date
        source_query := p.discovery_metadata.source_query
        search_context := p.discovery_metadata.search_context
        company_goal := p.discovery_metadata.company_goal
        discovering_company := p.discovery_metadata.discovering_company
        discovery_session_id := p.discovery_metadata.discovery_session_id }
    recent_activities := p.recent_activities
    pain_points := p.pain_points
    buying_signals := p.buying_signals
    budget_indicators := p.budget_indicators
    decision_makers := p.decision_makers
    status := p.status.value
    interactions := p.interactions
    notes := p.notes
    tags := p.tags
    opportunity_description := p.opportunity_description
    estimated_value := p.estimated_value
    timeline_indicators := p.timeline_indicators
    competitor_analysis := p.competitor_analysis
    created_at := p.created_at
    updated_at := p.updated_at
    version := p.version }

/-- `ProspectProfile.from_dict`: the three enum constructors raise on an
unknown string (caught by the storage layer), modelled as `none`; all
other fields are copied through. -/
def from_dict (d : ProfileDict) : Option ProspectProfile :=
  match ProspectType.ofString d.prospect_type,
        RelevanceScore.ofString d.goal_alignment.relevance_score,
        ProspectStatus.ofString d.status with
  | some pt, some rs, some ps =>
      some
        { profile_id := d.profile_id
          name := d.name
          prospect_type := pt
          business_description := d.business_description
          industry := d.industry
          location := d.location
          company_size := d.company_size
          company_stage := d.company_stage
          contact_info := d.contact_info
          goal_alignment :=
            { relevance_score := rs
              fit_reasons := d.goal_alignment.fit_reasons
              potential_value := d.goal_alignment.potential_value
              approach_priority := d.goal_alignment.approach_priority
              alignment_notes := d.goal_alignment.alignment_notes }
          discovery_metadata :=
            { discovery_date := d.discovery_metadata.discovery_date
              source_query := d.discovery_metadata.source_query
              search_context := d.discovery_metadata.search_context
              company_goal := d.discovery_metadata.company_goal
              discovering_company := d.discovery_metadata.discovering_company
              discovery_session_id := d.discovery_metadata.discovery_session_id }
          recent_activities := d.recent_activities
          pain_points := d.pain_points
          buying_signals := d.buying_signals
          budget_indicators := d.budget_indicators
          decision_makers := d.decision_makers
          status := ps
          interactions := d.interactions
          notes := d.notes
          tags := d.tags
          opportunity_description := d.opportunity_description
          estimated_value := d.estimated_value
          timeline_indicators := d.timeline_indicators
          competitor_analysis := d.competitor_analysis
          created_at := d.created_at
          updated_at := d.updated_at
          version := d.version }
  | _, _, _ => none

/-! ### Python dicts as association lists -/

/-- `m[k]` lookup in a Python dict (first binding wins; dicts keep keys
unique). -/
def assocGet (k : String) : List (String × α) → Option α
  | [] => none
  | (k', v) :: rest => if k' = k then some v else assocGet k rest

/-- `m[k] = v`: update in place if the key exists (Python dicts keep the
original insertion position), else append at the end. -/
def assocSet (k : String) (v : α) : List (String × α) → List (String × α)
  | [] => [(k, v)]
  | (k', v') :: rest =>
      if k' = k then (k, v) :: rest else (k', v') :: assocSet k v rest

/-- `del m[k]`. -/
def assocDel (k : String) : List (String × α) → List (String × α)
  | [] => []
  | (k', v') :: rest =>
      if k' = k then rest else (k', v') :: assocDel k rest

/-! ### The index file -/

/-- One entry of `index["profiles"]`: the compact projection written by
`_update_index`. -/
structure Summary where
  name : String
  prospect_type : String
  status : String
  relevance_score : String
  company_goal : String
  discovering_company : String
  created_at : Nat
  updated_at : Nat
  tags : List String
  deriving DecidableEq, Repr

/-- The projection `_update_index` stores under `index["profiles"][id]`. -/
def summaryOf (p : ProspectProfile) : Summary :=
  { name := p.name
    prospect_type := p.prospect_type.value
    status := p.status.value
    relevance_score := p.goal_alignment.relevance_score.value
    company_goal := p.discovery_metadata.company_goal
    discovering_company := p.discovery_metadata.discovering_company
    created_at := p.created_at
    updated_at := p.updated_at
    tags := p.tags }

/-- The index file `index.json` (its `last_updated` timestamp omitted). -/
structure Index where
  profiles : List (String × Summary)
  by_company : List (String × List String)
  by_goal : List (String × List String)
  by_status : List (String × List String)
  by_relevance : List (String × List String)
  by_tags : List (String × List String)
  deriving DecidableEq, Repr

/-- The freshly initialized index of `_init_index`. -/
def emptyIndex : Index :=
  { profiles := [], by_company := [], by_goal := [], by_status := [],
    by_relevance := [], by_tags := [] }

/-- The per-bucket step of `_update_index`: create the bucket if the key
is new, then append the id if not yet a member. -/
def bucketAdd (m : List (String × List String)) (key pid : String) :
    List (String × List String) :=
  match assocGet key m with
  | none => assocSet key [pid] m
  | some l => if pid ∈ l then m else assocSet key (l ++ [pid]) m

/-- The per-bucket step of `_remove_from_index`: remove the first
occurrence of the id if present, then delete the bucket if it became
empty. -/
def bucketRemove (m : List (String × List String)) (key pid : String) :
    List (String × List String) :=
  match assocGet key m with
  | none => m
  | some l =>
      let l2 := if pid ∈ l then l.erase pid else l
      if l2 = [] then assocDel key m else assocSet key l2 m

/-- `ProfileStorage._update_index`: overwrites the summary entry and adds
the id to the buckets of the profile's *current* field values. Note that
it never removes the id from buckets of previous field values. -/
def updateIndex (idx : Index) (p : ProspectProfile) : Index :=
  { profiles := assocSet p.profile_id (summaryOf p) idx.profiles
    by_company :=
      bucketAdd idx.by_company p.discovery_metadata.discovering_company
        p.profile_id
    by_goal := bucketAdd idx.by_goal p.discovery_metadata.company_goal
        p.profile_id
    by_status := bucketAdd idx.by_status p.status.value p.profile_id
    by_relevance :=
      bucketAdd idx.by_relevance p.goal_alignment.relevance_score.value
        p.profile_id
    by_tags := p.tags.foldl (fun m tag => bucketAdd m tag p.profile_id)
        idx.by_tags }

/-- `ProfileStorage._remove_from_index`: early-returns when the id has no
summary entry; otherwise deletes the summary and removes the id from the
buckets named by the *summary's* field values. -/
def removeFromIndex (idx : Index) (pid : String) : Index :=
  match assocGet pid idx.profiles with
  | none => idx
  | some s =>
      { profiles := assocDel pid idx.profiles
        by_company := bucketRemove idx.by_company s.discovering_company pid
        by_goal := bucketRemove idx.by_goal s.company_goal pid
        by_status := bucketRemove idx.by_status s.status pid
        by_relevance := bucketRemove idx.by_relevance s.relevance_score pid
        by_tags := s.tags.foldl (fun m tag => bucketRemove m tag pid)
            idx.by_tags }

/-! ### The storage state and CRUD operations -/

/-- `ProfileStorage` state: the per-profile document files, the index
file, and the `total_profiles` metadata counter. -/
structure Storage where
  docs : List (String × ProfileDict)
  index : Index
  total_profiles : Nat
  deriving DecidableEq, Repr

/-- A freshly initialized storage directory. -/
def emptyStorage : Storage :=
  { docs := [], index := emptyIndex, total_profiles := 0 }

/-- `ProfileStorage.save_profile`: writes `to_dict(profile)` to the
profile's file, runs `_update_index`, recounts `total_profiles`, and
returns `True` (I/O succeeds in the model). -/
def save_profile (st : Storage) (p : ProspectProfile) : Storage × Bool :=
  let docs := assocSet p.profile_id (to_dict p) st.docs
  let idx := updateIndex st.index p
  ({ docs := docs, index := idx, total_profiles := idx.profiles.length },
   true)

/-- `ProfileStorage.load_profile`: `None` when the file is absent; when
present, `from_dict` of its contents — a deserialization failure raises,
is caught, and also yields `None`. -/
def load_profile (st : Storage) (pid : String) : Option ProspectProfile :=
  match assocGet pid st.docs with
  | none => none
  | some d => from_dict d

/-- `ProfileStorage.delete_profile`: unlinks the file if it exists, runs
`_remove_from_index`, recounts `total_profiles`, and returns `True` in
every case. -/
def delete_profile (st : Storage) (pid : String) : Storage × Bool :=
  let docs := assocDel pid st.docs
  let idx := removeFromIndex st.index pid
  ({ docs := docs, index := idx, total_profiles := idx.profiles.length },
   true)

/-- The comparison `list.sort(key=updated_at, reverse=True)` performs:
descending by `updated_at`, stable on ties. -/
def summaryGE (a b : String × Summary) : Bool :=
  Nat.ble b.2.updated_at a.2.updated_at

/-- The sorted summary listing built by `list_profiles` before slicing. -/
def sortedSummaries (st : Storage) : List (String × Summary) :=
  st.index.profiles.mergeSort summaryGE

/-- `ProfileStorage.list_profiles`: sorts the summary entries by
`updated_at` descending and returns the slice `[offset : offset+limit]`
(each row is the summary joined with its `profile_id`). -/
def list_profiles (st : Storage) (limit offset : Nat) :
    List (String × Summary) :=
  ((sortedSummaries st).drop offset).take limit

/-! ### Search -/

/-- The `**filters` kwargs of `search_profiles` as explicit optional
fields; a field is `none` when the keyword is not passed. -/
structure Filters where
  company : Option String := none
  goal : Option String := none
  status : Option String := none
  relevance : Option String := none
  tags : Option (List String) := none
  name : Option String := none
  deriving DecidableEq, Repr

/-- The empty kwargs dict (`not filters` is true exactly here). -/
def noFilters : Filters := {}

/-- The case-insensitive substring check of the name filter:
`name_filter in profile_data.get("name", "").lower()` with the filter
already lowercased. -/
def nameMatches (name_filter s : String) : Bool :=
  decide (List.IsInfix name_filter.toLower.data s.toLower.data)

/-- `ProfileStorage.search_profiles`. The running Python `set` is a
`Finset String`; each filter block mirrors the source: a missing bucket
key leaves the running set untouched, a present bucket is unioned in when
the running set is empty and intersected otherwise (the company block,
first, only unions). With no kwargs at all and an empty running set, all
known ids are returned. -/
def search_profiles (st : Storage) (f : Filters) : Finset String :=
  let step := fun (results : Finset String) (bucket : Option (List String)) =>
    match bucket with
    | none => results
    | some l =>
        if results ≠ ∅ then results ∩ l.toFinset else results ∪ l.toFinset
  let r0 : Finset String := ∅
  let r1 := match f.company with
    | none => r0
    | some c =>
        match assocGet c st.index.by_company with
        | none => r0
        | some l => r0 ∪ l.toFinset
  let r2 := match f.goal with
    | none => r1
    | some g => step r1 (assocGet g st.index.by_goal)
  let r3 := match f.status with
    | none => r2
    | some s => step r2 (assocGet s st.index.by_status)
  let r4 := match f.relevance with
    | none => r3
    | some rel => step r3 (assocGet rel st.index.by_relevance)
  let r5 := match f.tags with
    | none => r4
    | some tags =>
        let tag_results := tags.foldl
          (fun acc t =>
            match assocGet t st.index.by_tags with
            | none => acc
            | some l => acc ∪ l.toFinset) (∅ : Finset String)
        if r4 ≠ ∅ then r4 ∩ tag_results else r4 ∪ tag_results
  let r6 := match f.name with
    | none => r5
    | some nm =>
        let name_results :=
          (st.index.profiles.filter fun kv => nameMatches nm kv.2.name).map
            (fun kv => kv.1)
        if r5 ≠ ∅ then r5 ∩ name_results.toFinset
        else r5 ∪ name_results.toFinset
  if r6 = ∅ ∧ f = noFilters then (st.index.profiles.map (fun kv => kv.1)).toFinset
  else r6

/-! ### ProfileManager mutators -/

/-- `ProfileManager.update_status`: load, fail with `False` when absent,
else apply the in-memory mutation and re-save. -/
def mgr_update_status (st : Storage) (pid : String) (ns : ProspectStatus)
    (now : Nat) : Storage × Bool :=
  match load_profile st pid with
  | none => (st, false)
  | some p => save_profile st (p.update_status ns now)

/-- `ProfileManager.add_tag`. -/
def mgr_add_tag (st : Storage) (pid : String) (tag : String) (now : Nat) :
    Storage × Bool :=
  match load_profile st pid with
  | none => (st, false)
  | some p => save_profile st (p.add_tag tag now)

/-- `ProfileManager.add_note`. -/
def mgr_add_note (st : Storage) (pid : String) (note category : String)
    (now : Nat) : Storage × Bool :=
  match load_profile st pid with
  | none => (st, false)
  | some p => save_profile st (p.add_note note category now)

/-- `ProfileManager.add_interaction`. -/
def mgr_add_interaction (st : Storage) (pid : String)
    (itype content outcome : String) (now : Nat) : Storage × Bool :=
  match load_profile st pid with
  | none => (st, false)
  | some p => save_profile st (p.add_interaction itype content outcome now)

/-! ### Operation sequences over the raw store -/

/-- One store mutation, for stating reachability over save/delete
sequences. -/
inductive Op
  | save (p : ProspectProfile)
  | delete (pid : String)

/-- Apply one operation to the storage state. -/
def applyOp (st : Storage) : Op → Storage
  | .save p => (save_profile st p).1
  | .delete pid => (delete_profile st pid).1

/-- Run a sequence of operations from the empty store. -/
def runOps (ops : List Op) : Storage :=
  ops.foldl applyOp emptyStorage

/-! ### Concrete example states used in counterexamples and witnesses -/

/-- A freshly created profile with id `"p1"`. -/
def exP1 : ProspectProfile := mkProfile "p1" 0

/-- The store after saving `exP1` into an empty store. -/
def exSt1 : Storage := (save_profile emptyStorage exP1).1

/-- The store after additionally updating `"p1"` to status `contacted`
through the manager. -/
def exSt2 : Storage := (mgr_update_status exSt1 "p1" ProspectStatus.contacted 1).1

/-- A profile with status `qualified` and relevance `High`. -/
def exPA : ProspectProfile :=
  { mkProfile "pA" 0 with
    status := ProspectStatus.qualified
    goal_alignment := { relevance_score := RelevanceScore.high } }

/-- The store holding only `exPA`. -/
def exStA : Storage := (save_profile emptyStorage exPA).1

/-- A document record whose `status` string is not a member of
`ProspectStatus`: it exists but fails to deserialize. -/
def exCorruptDoc : ProfileDict := { to_dict exP1 with status := "bogus" }

/-- A store whose only document record is corrupt (and which is absent
from the index, as a crashed writer would leave it). -/
def exCorruptStore : Storage :=
  { docs := [("p1", exCorruptDoc)], index := emptyIndex, total_profiles := 0 }

/-! ### Lemmas about association-list dictionaries -/

theorem assocGet_set_self (k : String) (v : α) (m : List (String × α)) :
    assocGet k (assocSet k v m) = some v := by
  induction m with
  | nil => simp [assocSet, assocGet]
  | cons hd tl ih =>
      obtain ⟨k', v'⟩ := hd
      by_cases h : k' = k <;> simp [assocSet, assocGet, h, ih]

theorem assocGet_set_ne (k k' : String) (v : α) (m : List (String × α))
    (h : k' ≠ k) : assocGet k' (assocSet k v m) = assocGet k' m := by
  have hne : ¬ k = k' := fun e => h (Eq.symm e)
  induction m with
  | nil => simp [assocSet, assocGet, hne]
  | cons hd tl ih =>
      obtain ⟨k₀, v₀⟩ := hd
      by_cases h₀ : k₀ = k
      · subst h₀
        simp [assocSet, assocGet, hne]
      · simp [assocSet, assocGet, h₀, ih]

theorem assocGet_del_ne (k k' : String) (m : List (String × α))
    (h : k' ≠ k) : assocGet k' (assocDel k m) = assocGet k' m := by
  induction m with
  | nil => simp [assocDel]
  | cons hd tl ih =>
      obtain ⟨k₀, v₀⟩ := hd
      by_cases h₀ : k₀ = k
      · subst h₀
        have hne : ¬ k₀ = k' := fun e => h (Eq.symm e)
        simp [assocDel, assocGet, hne]
      · simp [assocDel, assocGet, h₀, ih]

theorem assocDel_of_get_none (k : String) (m : List (String × α))
    (h : assocGet k m = none) : assocDel k m = m := by
  induction m with
  | nil => simp [assocDel]
  | cons hd tl ih =>
      obtain ⟨k₀, v₀⟩ := hd
      by_cases h₀ : k₀ = k
      · simp [assocGet, h₀] at h
      · simp [assocGet, h₀] at h
        simp [assocDel, h₀, ih h]

theorem assocSet_set_self (k : String) (v : α) (m : List (String × α)) :
    assocSet k v (assocSet k v m) = assocSet k v m := by
  induction m with
  | nil => simp [assocSet]
  | cons hd tl ih =>
      obtain ⟨k₀, v₀⟩ := hd
      by_cases h₀ : k₀ = k <;> simp [assocSet, h₀, ih]

/-- The first components of an association list. -/
def keysOf (m : List (String × α)) : List String := m.map Prod.fst

/-- Key uniqueness: the property Python dicts enjoy by construction. -/
def KeysUnique (m : List (String × α)) : Prop := (keysOf m).Nodup

theorem keysUnique_nil : KeysUnique ([] : List (String × α)) := by
  simp [KeysUnique, keysOf]

theorem mem_keys_assocSet (k k₁ : String) (v : α) (m : List (String × α))
    (h : k₁ ∈ keysOf (assocSet k v m)) : k₁ ∈ keysOf m ∨ k₁ = k := by
  induction m with
  | nil =>
      simp [assocSet, keysOf] at h
      exact Or.inr h
  | cons hd tl ih =>
      obtain ⟨k₂, v₂⟩ := hd
      by_cases h₂ : k₂ = k
      · subst h₂
        simp [assocSet, keysOf] at h ⊢
        rcases h with h | h
        · exact Or.inr h
        · exact Or.inl (Or.inr h)
      · simp [assocSet, h₂, keysOf] at h ⊢
        rcases h with h | h
        · exact Or.inl (Or.inl h)
        · rcases ih (by simpa [keysOf] using h) with h' | h'
          · exact Or.inl (Or.inr (by simpa [keysOf] using h'))
          · exact Or.inr h'

theorem keysUnique_set (k : String) (v : α) (m : List (String × α))
    (h : KeysUnique m) : KeysUnique (assocSet k v m) := by
  induction m with
  | nil => simp [assocSet, KeysUnique, keysOf]
  | cons hd tl ih =>
      obtain ⟨k₀, v₀⟩ := hd
      have h1 : k₀ ∉ keysOf tl := (List.nodup_cons.1 h).1
      have h2 : KeysUnique tl := (List.nodup_cons.1 h).2
      by_cases h₀ : k₀ = k
      · subst h₀
        have heq : assocSet k₀ v ((k₀, v₀) :: tl) = (k₀, v) :: tl := by
          simp [assocSet]
        rw [heq]
        exact List.nodup_cons.2 ⟨h1, h2⟩
      · have heq : assocSet k v ((k₀, v₀) :: tl) = (k₀, v₀) :: assocSet k v tl := by
          simp [assocSet, h₀]
        rw [heq]
        refine List.nodup_cons.2 ⟨?_, ih h2⟩
        intro hmem
        rcases mem_keys_assocSet k k₀ v tl hmem with h' | h'
        · exact h1 h'
        · exact h₀ h'

theorem assocDel_sublist (k : String) (m : List (String × α)) :
    List.Sublist (assocDel k m) m := by
  induction m with
  | nil => simp [assocDel]
  | cons hd tl ih =>
      obtain ⟨k₀, v₀⟩ := hd
      by_cases h₀ : k₀ = k
      · rw [show assocDel k ((k₀, v₀) :: tl) = tl by simp [assocDel, h₀]]
        exact List.sublist_cons_self (k₀, v₀) tl
      · rw [show assocDel k ((k₀, v₀) :: tl) = (k₀, v₀) :: assocDel k tl by
          simp [assocDel, h₀]]
        exact List.Sublist.cons₂ (k₀, v₀) ih

theorem keysUnique_del (k : String) (m : List (String × α))
    (h : KeysUnique m) : KeysUnique (assocDel k m) := by
  exact List.Nodup.sublist (List.Sublist.map Prod.fst (assocDel_sublist k m)) h

theorem assocGet_eq_none_iff (k : String) (m : List (String × α)) :
    assocGet k m = none ↔ k ∉ keysOf m := by
  induction m with
  | nil => simp [assocGet, keysOf]
  | cons hd tl ih =>
      obtain ⟨k₀, v₀⟩ := hd
      by_cases h₀ : k₀ = k
      · subst h₀
        simp [assocGet, keysOf]
      · have heq : assocGet k ((k₀, v₀) :: tl) = assocGet k tl := by
          simp [assocGet, h₀]
        have hmem : k ∈ keysOf ((k₀, v₀) :: tl) ↔ k ∈ keysOf tl := by
          simp only [keysOf, List.map_cons, List.mem_cons]
          constructor
          · intro h
            rcases h with h | h
            · exact absurd h.symm h₀
            · exact h
          · exact Or.inr
        rw [heq, ih]
        constructor
        · intro h hk
          exact h (hmem.1 hk)
        · intro h hk
          exact h (hmem.2 hk)

theorem assocGet_del_self (k : String) (m : List (String × α))
    (h : KeysUnique m) : assocGet k (assocDel k m) = none := by
  induction m with
  | nil => simp [assocDel, assocGet]
  | cons hd tl ih =>
      obtain ⟨k₀, v₀⟩ := hd
      have h1 : k₀ ∉ keysOf tl := (List.nodup_cons.1 h).1
      have h2 : KeysUnique tl := (List.nodup_cons.1 h).2
      by_cases h₀ : k₀ = k
      · subst h₀
        have heq : assocDel k₀ ((k₀, v₀) :: tl) = tl := by simp [assocDel]
        rw [heq, assocGet_eq_none_iff]
        exact h1
      · simp [assocDel, h₀, assocGet, ih h2]

/-! ### Bucket lemmas -/

/-- The id occurs in the bucket stored under `key`. -/
def pidInBucket (m : List (String × List String)) (key pid : String) : Prop :=
  ∃ l, assocGet key m = some l ∧ pid ∈ l

theorem bucketAdd_mem (m : List (String × List String)) (key pid : String) :
    pidInBucket (bucketAdd m key pid) key pid := by
  unfold bucketAdd
  cases hget : assocGet key m with
  | none => exact ⟨[pid], by simp [assocGet_set_self], by simp⟩
  | some l =>
      by_cases hin : pid ∈ l
      · exact ⟨l, by simp [hin, hget], hin⟩
      · refine ⟨l ++ [pid], ?_, by simp⟩
        simp [hin, assocGet_set_self]

theorem bucketAdd_of_mem (m : List (String × List String)) (key pid : String)
    (h : pidInBucket m key pid) : bucketAdd m key pid = m := by
  obtain ⟨l, hget, hin⟩ := h
  simp [bucketAdd, hget, hin]

theorem bucketAdd_get_ne (m : List (String × List String))
    (key key' pid : String) (h : key' ≠ key) :
    assocGet key' (bucketAdd m key pid) = assocGet key' m := by
  unfold bucketAdd
  cases hget : assocGet key m with
  | none => exact assocGet_set_ne key key' [pid] m h
  | some l =>
      by_cases hin : pid ∈ l
      · simp [hin]
      · simp only [hin, if_false]
        exact assocGet_set_ne key key' (l ++ [pid]) m h

theorem bucketAdd_idem (m : List (String × List String)) (key pid : String) :
    bucketAdd (bucketAdd m key pid) key pid = bucketAdd m key pid := by
  exact bucketAdd_of_mem _ key pid (bucketAdd_mem m key pid)

theorem bucketAdd_preserves_mem (m : List (String × List String))
    (key key' pid : String) (h : pidInBucket m key' pid) :
    pidInBucket (bucketAdd m key pid) key' pid := by
  by_cases hk : key' = key
  · subst hk
    exact bucketAdd_mem m key' pid
  · obtain ⟨l, hget, hin⟩ := h
    exact ⟨l, by rw [bucketAdd_get_ne m key key' pid hk]; exact hget, hin⟩

theorem foldl_bucketAdd_preserves_mem (ts : List String)
    (m : List (String × List String)) (key pid : String)
    (h : pidInBucket m key pid) :
    pidInBucket (ts.foldl (fun m tag => bucketAdd m tag pid) m) key pid := by
  induction ts generalizing m with
  | nil => exact h
  | cons t ts ih =>
      exact ih (bucketAdd m t pid) (bucketAdd_preserves_mem m t key pid h)

theorem foldl_bucketAdd_mem (ts : List String)
    (m : List (String × List String)) (pid : String) :
    ∀ t ∈ ts, pidInBucket (ts.foldl (fun m tag => bucketAdd m tag pid) m) t pid := by
  induction ts generalizing m with
  | nil => intro t ht; cases ht
  | cons t₀ ts ih =>
      intro t ht
      rcases List.mem_cons.1 ht with h | h
      · subst h
        exact foldl_bucketAdd_preserves_mem ts (bucketAdd m t pid) t pid
          (bucketAdd_mem m t pid)
      · exact ih (bucketAdd m t₀ pid) t h

theorem foldl_bucketAdd_of_mem (ts : List String)
    (m : List (String × List String)) (pid : String)
    (h : ∀ t ∈ ts, pidInBucket m t pid) :
    ts.foldl (fun m tag => bucketAdd m tag pid) m = m := by
  induction ts with
  | nil => rfl
  | cons t₀ ts ih =>
      have h₀ : bucketAdd m t₀ pid = m :=
        bucketAdd_of_mem m t₀ pid (h t₀ (List.mem_cons_self t₀ ts))
      simp only [List.foldl_cons, h₀]
      exact ih fun t ht => h t (List.mem_cons_of_mem t₀ ht)

theorem foldl_bucketAdd_idem (ts : List String)
    (m : List (String × List String)) (pid : String) :
    ts.foldl (fun m tag => bucketAdd m tag pid)
      (ts.foldl (fun m tag => bucketAdd m tag pid) m) =
    ts.foldl (fun m tag => bucketAdd m tag pid) m :=
  foldl_bucketAdd_of_mem ts _ pid (foldl_bucketAdd_mem ts m pid)

/-- Re-running `_update_index` with the same profile is a no-op. -/
theorem updateIndex_idem (idx : Index) (p : ProspectProfile) :
    updateIndex (updateIndex idx p) p = updateIndex idx p := by
  unfold updateIndex
  simp only [assocSet_set_self, bucketAdd_idem, foldl_bucketAdd_idem]

/-! ### The bidirectional document/index consistency invariant -/

/-- Keys are unique in both maps, and an id has a document record exactly
when it has a summary entry. -/
def StorageInv (st : Storage) : Prop :=
  KeysUnique st.docs ∧ KeysUnique st.index.profiles ∧
  ∀ pid, (assocGet pid st.docs).isSome ↔
    (assocGet pid st.index.profiles).isSome

theorem storageInv_empty : StorageInv emptyStorage := by
  refine ⟨keysUnique_nil, keysUnique_nil, fun pid => ?_⟩
  simp [emptyStorage, emptyIndex, assocGet]

theorem storageInv_save (st : Storage) (p : ProspectProfile)
    (h : StorageInv st) : StorageInv (save_profile st p).1 := by
  obtain ⟨hd, hp, hiff⟩ := h
  refine ⟨keysUnique_set _ _ _ hd, keysUnique_set _ _ _ hp, fun pid => ?_⟩
  by_cases hpid : pid = p.profile_id
  · subst hpid
    simp [save_profile, updateIndex, assocGet_set_self]
  · have h₁ := assocGet_set_ne p.profile_id pid (to_dict p) st.docs hpid
    have h₂ := assocGet_set_ne p.profile_id pid (summaryOf p)
      st.index.profiles hpid
    simp [save_profile, updateIndex, h₁, h₂, hiff pid]

theorem storageInv_delete (st : Storage) (pid0 : String)
    (h : StorageInv st) : StorageInv (delete_profile st pid0).1 := by
  obtain ⟨hd, hp, hiff⟩ := h
  cases hget : assocGet pid0 st.index.profiles with
  | none =>
      refine ⟨keysUnique_del _ _ hd, ?_, fun pid => ?_⟩
      · simp only [delete_profile, removeFromIndex, hget]
        exact hp
      · by_cases hpid : pid = pid0
        · subst hpid
          simp [delete_profile, removeFromIndex, hget,
            assocGet_del_self pid st.docs hd]
        · have h₁ := assocGet_del_ne pid0 pid st.docs hpid
          simp [delete_profile, removeFromIndex, hget, h₁, hiff pid]
  | some s =>
      refine ⟨keysUnique_del _ _ hd, ?_, fun pid => ?_⟩
      · simp only [delete_profile, removeFromIndex, hget]
        exact keysUnique_del _ _ hp
      · by_cases hpid : pid = pid0
        · subst hpid
          simp [delete_profile, removeFromIndex, hget,
            assocGet_del_self pid st.docs hd,
            assocGet_del_self pid st.index.profiles hp]
        · have h₁ := assocGet_del_ne pid0 pid st.docs hpid
          have h₂ := assocGet_del_ne pid0 pid st.index.profiles hpid
          simp [delete_profile, removeFromIndex, hget, h₁, h₂, hiff pid]

theorem storageInv_foldl (ops : List Op) (st : Storage) (h : StorageInv st) :
    StorageInv (ops.foldl applyOp st) := by
  induction ops generalizing st with
  | nil => exact h
  | cons op ops ih =>
      cases op with
      | save p => exact ih _ (storageInv_save st p h)
      | delete pid => exact ih _ (storageInv_delete st pid h)

theorem storageInv_runOps (ops : List Op) : StorageInv (runOps ops) :=
  storageInv_foldl ops emptyStorage storageInv_empty

/-! ### Enum string round-trips -/

theorem ProspectType.ofString_value_eq (t : ProspectType) :
    ProspectType.ofString t.value = some t := by
  cases t <;> rfl

theorem RelevanceScore.ofString_roundtrip (r : RelevanceScore) :
    RelevanceScore.ofString r.value = some r := by
  cases r <;> rfl

theorem ProspectStatus.ofString_restores (s : ProspectStatus) :
    ProspectStatus.ofString s.value = some s := by
  cases s <;> rfl

/-- Serialization round-trip: `from_dict (to_dict p) = some p`, shared by
several results below. -/
theorem from_dict_to_dict (p : ProspectProfile) :
    from_dict (to_dict p) = some p := by
  simp only [to_dict, from_dict, ProspectType.ofString_value_eq,
    RelevanceScore.ofString_roundtrip, ProspectStatus.ofString_restores]

/-- Loading a profile right after saving it returns it unchanged. -/
theorem load_profile_save (st : Storage) (q : ProspectProfile) :
    load_profile (save_profile st q).1 q.profile_id = some q := by
  simp only [load_profile, save_profile]
  rw [assocGet_set_self]
  exact from_dict_to_dict q

/-- `add_tag` with an already-present tag changes nothing. -/
theorem add_tag_mem_noop (p : ProspectProfile) (x : String) (now : Nat)
    (h : x ∈ p.tags) : p.add_tag x now = p := by
  simp [ProspectProfile.add_tag, h]

/-- `add_tag` with a fresh tag appends it and bumps
`updated_at`/`version`. -/
theorem add_tag_not_mem (p : ProspectProfile) (x : String) (now : Nat)
    (h : x ∉ p.tags) :
    p.add_tag x now =
      { p with tags := p.tags ++ [x], updated_at := now,
               version := p.version + 1 } := by
  simp [ProspectProfile.add_tag, h]

/-- A kwargs dict carrying exactly a `status` and a `relevance` filter. -/
def statusRelevanceFilters (s r : String) : Filters :=
  { status := some s, relevance := some r }

/-- A kwargs dict carrying exactly a `status` filter. -/
def statusFilter (s : String) : Filters := { status := some s }

/-! ## The claims -/

/-- C1: the spec requires that after `updateStatus(id, "contacted")` a
search for the old status `"discovered"` no longer returns the id. The
code violates this: `_update_index` only appends to the bucket of the
new status value and never removes the id from the bucket of the old
one, so the stale `"discovered"` bucket still holds the id and the
search with the old status still returns it. This theorem evaluates the
code at the failing input: the status update succeeds, and afterwards
the id is a member of **both** status searches. -/
theorem C1_updateStatus_leaves_stale_status_bucket :
    (mgr_update_status exSt1 "p1" ProspectStatus.contacted 1).2 = true ∧
    "p1" ∈ search_profiles exSt2 (statusFilter "discovered") ∧
    "p1" ∈ search_profiles exSt2 (statusFilter "contacted") := by
  decide

/-- C2 counterexample: in the store holding only the profile `"pA"`
(status `qualified`, relevance `High`), the filter pair
`status = "contacted"`, `relevance = "High"` has an absent status bucket,
which the claim says denotes the empty set, making the claimed result
`∅ ∩ High-bucket = ∅`; the code instead skips the bucketless filter and
returns the whole relevance bucket `{"pA"}`. -/
theorem C2_missing_bucket_counterexample :
    assocGet "contacted" exStA.index.by_status = none ∧
    assocGet "High" exStA.index.by_relevance = some ["pA"] ∧
    search_profiles exStA (statusRelevanceFilters "contacted" "High") =
      {"pA"} ∧
    ({"pA"} : Finset String) ≠ (∅ : Finset String) := by
  decide

/-- C2 amended: when **both** filter keys have buckets (status buckets
are nonempty in every reachable store), `search` with
`{status, relevance}` returns exactly the set intersection of the two
buckets, and in particular is a subset of each; a filter key with no
bucket is instead skipped (treated as no constraint), not read as the
empty set. -/
theorem C2_search_intersects_present_buckets (st : Storage) (s r : String)
    (ls lr : List String) (hs : assocGet s st.index.by_status = some ls)
    (hne : ls ≠ []) (hr : assocGet r st.index.by_relevance = some lr) :
    search_profiles st (statusRelevanceFilters s r) =
      ls.toFinset ∩ lr.toFinset ∧
    search_profiles st (statusRelevanceFilters s r) ⊆ ls.toFinset ∧
    search_profiles st (statusRelevanceFilters s r) ⊆ lr.toFinset := by
  have hfin : ls.toFinset ≠ (∅ : Finset String) := by
    intro h
    exact hne (List.toFinset_eq_empty_iff ls |>.1 h)
  have hmain : search_profiles st (statusRelevanceFilters s r) =
      ls.toFinset ∩ lr.toFinset := by
    simp [search_profiles, statusRelevanceFilters, hs, hr, hfin, noFilters]
  refine ⟨hmain, ?_, ?_⟩
  · rw [hmain]
    exact Finset.inter_subset_left
  · rw [hmain]
    exact Finset.inter_subset_right

/-- C2 witness: the amended theorem applied to the concrete store holding
only `"pA"` with both buckets present. -/
theorem C2_search_intersects_present_buckets_witness :
    search_profiles exStA (statusRelevanceFilters "qualified" "High") =
      List.toFinset ["pA"] ∩ List.toFinset ["pA"] ∧
    search_profiles exStA (statusRelevanceFilters "qualified" "High") ⊆
      List.toFinset ["pA"] ∧
    search_profiles exStA (statusRelevanceFilters "qualified" "High") ⊆
      List.toFinset ["pA"] :=
  C2_search_intersects_present_buckets exStA "qualified" "High" ["pA"] ["pA"]
    (by decide) (by decide) (by decide)

/-- C3: for every sequence of `save_profile`/`delete_profile` operations
from the empty store, a profile id has a summary entry in the index's
`profiles` map exactly when its document record exists: no dangling
summary entries and no invisible documents. -/
theorem C3_index_document_consistency (ops : List Op) (pid : String) :
    (assocGet pid (runOps ops).index.profiles).isSome ↔
    (assocGet pid (runOps ops).docs).isSome :=
  ((storageInv_runOps ops).2.2 pid).symm

/-- C4: starting from a store whose record at `pid` holds profile `p`
(stored under its own id) without tag `x`, calling the manager's
`add_tag` twice reports success both times, and the stored profile ends
with `x` exactly once in its tag list and its version bumped by exactly
one (the duplicate second call is a no-op that bumps nothing). -/
theorem C4_addTag_twice_bumps_version_once (st : Storage) (pid x : String)
    (now1 now2 : Nat) (p : ProspectProfile)
    (hload : load_profile st pid = some p) (hid : p.profile_id = pid)
    (hx : x ∉ p.tags) :
    (mgr_add_tag st pid x now1).2 = true ∧
    (mgr_add_tag (mgr_add_tag st pid x now1).1 pid x now2).2 = true ∧
    (∃ q, load_profile (mgr_add_tag (mgr_add_tag st pid x now1).1 pid x now2).1
        pid = some q ∧
      q.tags.count x = 1 ∧ q.version = p.version + 1) := by
  have htag : p.add_tag x now1 =
      { p with tags := p.tags ++ [x], updated_at := now1,
               version := p.version + 1 } :=
    add_tag_not_mem p x now1 hx
  have hid1 : (p.add_tag x now1).profile_id = pid := by rw [htag]; exact hid
  have hstep1 : mgr_add_tag st pid x now1 =
      save_profile st (p.add_tag x now1) := by
    simp [mgr_add_tag, hload]
  have hsave : ∀ st0 : Storage,
      load_profile (save_profile st0 (p.add_tag x now1)).1 pid =
        some (p.add_tag x now1) := by
    intro st0
    rw [← hid1]
    exact load_profile_save st0 (p.add_tag x now1)
  have hload1 : load_profile (save_profile st (p.add_tag x now1)).1 pid =
      some (p.add_tag x now1) := hsave st
  have hmem : x ∈ (p.add_tag x now1).tags := by
    rw [htag]
    simp
  have htag2 : (p.add_tag x now1).add_tag x now2 = p.add_tag x now1 :=
    add_tag_mem_noop (p.add_tag x now1) x now2 hmem
  have hstep2 : mgr_add_tag (mgr_add_tag st pid x now1).1 pid x now2 =
      save_profile (save_profile st (p.add_tag x now1)).1 (p.add_tag x now1) := by
    rw [hstep1]
    simp [mgr_add_tag, hload1, htag2]
  refine ⟨by rw [hstep1]; simp [save_profile],
    by rw [hstep2]; simp [save_profile], ⟨p.add_tag x now1, ?_, ?_, ?_⟩⟩
  · rw [hstep2]
    exact hsave (save_profile st (p.add_tag x now1)).1
  · rw [htag]
    simp [List.count_append, List.count_eq_zero.2 hx]
  · rw [htag]

/-- C4 witness: the theorem applied to the store holding the fresh
profile `"p1"`, which has no tags yet. -/
theorem C4_addTag_twice_bumps_version_once_witness :
    (mgr_add_tag exSt1 "p1" "x" 1).2 = true ∧
    (mgr_add_tag (mgr_add_tag exSt1 "p1" "x" 1).1 "p1" "x" 2).2 = true ∧
    (∃ q, load_profile (mgr_add_tag (mgr_add_tag exSt1 "p1" "x" 1).1 "p1" "x"
        2).1 "p1" = some q ∧
      q.tags.count "x" = 1 ∧ q.version = exP1.version + 1) :=
  C4_addTag_twice_bumps_version_once exSt1 "p1" "x" 1 2 exP1 (by decide) rfl
    (by decide)

/-- C5: loading back a saved profile reproduces every field exactly:
`from_dict (to_dict p) = some p` for every well-formed in-memory profile
(the save path itself bumps nothing, so no field is excepted). -/
theorem C5_serialization_roundtrip (p : ProspectProfile) :
    from_dict (to_dict p) = some p :=
  from_dict_to_dict p

/-- C6 counterexample: deleting the nonexistent id `"p1"` from the empty
store returns `True` — the very same result a successful delete of the
existing `"p1"` in `exSt1` returns — so the no-op case is **not**
reported distinctly from a successful delete. -/
theorem C6_delete_missing_same_result_counterexample :
    (delete_profile emptyStorage "p1").2 = true ∧
    (delete_profile exSt1 "p1").2 = true ∧
    (delete_profile emptyStorage "p1").2 = (delete_profile exSt1 "p1").2 := by
  decide

/-- C6 amended: deleting a nonexistent id returns the same success
result (`True`) as deleting an existing one — a silent no-op rather than
a distinct failure — and leaves both the index and the document map
completely unchanged (never corrupted). -/
theorem C6_delete_missing_silent_noop (st : Storage) (pid : String)
    (hdoc : assocGet pid st.docs = none)
    (hidx : assocGet pid st.index.profiles = none) :
    (delete_profile st pid).2 = true ∧
    (delete_profile st pid).1.index = st.index ∧
    (delete_profile st pid).1.docs = st.docs := by
  refine ⟨rfl, ?_, ?_⟩
  · simp [delete_profile, removeFromIndex, hidx]
  · simp [delete_profile, assocDel_of_get_none pid st.docs hdoc]

/-- C6 witness: the amended theorem applied to the empty store. -/
theorem C6_delete_missing_silent_noop_witness :
    (delete_profile emptyStorage "p1").2 = true ∧
    (delete_profile emptyStorage "p1").1.index = emptyStorage.index ∧
    (delete_profile emptyStorage "p1").1.docs = emptyStorage.docs :=
  C6_delete_missing_silent_noop emptyStorage "p1" rfl rfl

/-- C7 counterexample: in a store whose record `"p1"` exists but fails
to deserialize (its status string is not a valid enum member),
`load_profile` returns `None` — the very same value it returns for an
absent id — so the decode-error case is **not** reported distinctly from
not-found. -/
theorem C7_corrupt_record_counterexample :
    (assocGet "p1" exCorruptStore.docs).isSome = true ∧
    from_dict exCorruptDoc = none ∧
    load_profile exCorruptStore "p1" = none ∧
    load_profile emptyStorage "p1" = none := by
  decide

/-- C7 amended: `load_profile` returns the deserialized profile when the
record exists and parses; it returns `None` when the record is absent;
and when the record exists but fails to deserialize it also returns
`None` — the decode failure is only logged and is not distinguishable
from not-found in the returned value. -/
theorem C7_load_profile_cases (st : Storage) (pid : String) :
    (assocGet pid st.docs = none → load_profile st pid = none) ∧
    (∀ d, assocGet pid st.docs = some d →
      load_profile st pid = from_dict d) := by
  constructor
  · intro h
    simp [load_profile, h]
  · intro d h
    simp [load_profile, h]

/-- C7 witness: the cases theorem applied to the empty store (absent id)
and to the store holding the cleanly serialized `"p1"`. -/
theorem C7_load_profile_cases_witness :
    load_profile emptyStorage "p1" = none ∧
    load_profile exSt1 "p1" = from_dict (to_dict exP1) :=
  ⟨(C7_load_profile_cases emptyStorage "p1").1 rfl,
   (C7_load_profile_cases exSt1 "p1").2 (to_dict exP1) (by decide)⟩

/-- C8: a freshly constructed profile has status `discovered`, relevance
`Unscored`, and version 1; after exactly one `add_note` its version is 2
and its notes list has length 1. -/
theorem C8_fresh_profile_defaults_and_addNote (pid : String) (now now2 : Nat)
    (note cat : String) :
    (mkProfile pid now).status = ProspectStatus.discovered ∧
    (mkProfile pid now).goal_alignment.relevance_score =
      RelevanceScore.unscored ∧
    (mkProfile pid now).version = 1 ∧
    ((mkProfile pid now).add_note note cat now2).version = 2 ∧
    ((mkProfile pid now).add_note note cat now2).notes.length = 1 :=
  ⟨rfl, rfl, rfl, rfl, rfl⟩

/-- C9: for every store state, limit and offset, `list_profiles` returns
the slice of the `updated_at`-descending sorted summary listing that
skips the first `offset` entries and keeps at most `limit`; the sorted
listing is a permutation of the index's summary entries, the returned
slice is itself ordered by `updated_at` descending, and its length never
exceeds `limit`. -/
theorem C9_list_profiles_pagination (st : Storage) (limit offset : Nat) :
    list_profiles st limit offset =
      ((sortedSummaries st).drop offset).take limit ∧
    List.Pairwise (fun a b => b.2.updated_at ≤ a.2.updated_at)
      (sortedSummaries st) ∧
    List.Perm (sortedSummaries st) st.index.profiles ∧
    List.Pairwise (fun a b => b.2.updated_at ≤ a.2.updated_at)
      (list_profiles st limit offset) ∧
    (list_profiles st limit offset).length ≤ limit := by
  have hsorted : List.Pairwise (fun a b => summaryGE a b = true)
      (sortedSummaries st) := by
    apply List.sorted_mergeSort
    · intro a b c hab hbc
      simp only [summaryGE, Nat.ble_eq] at hab hbc ⊢
      exact le_trans hbc hab
    · intro a b
      simp only [summaryGE, Bool.or_eq_true, Nat.ble_eq]
      exact Nat.le_total _ _
  have hsorted2 : List.Pairwise (fun a b => b.2.updated_at ≤ a.2.updated_at)
      (sortedSummaries st) := by
    refine hsorted.imp ?_
    intro a b h
    simpa only [summaryGE, Nat.ble_eq] using h
  have hsub : List.Sublist (list_profiles st limit offset)
      (sortedSummaries st) :=
    List.Sublist.trans (List.take_sublist _ _) (List.drop_sublist _ _)
  refine ⟨rfl, hsorted2, List.mergeSort_perm _ _, hsorted2.sublist hsub, ?_⟩
  simpa only [list_profiles] using List.length_take_le limit _

/-- C10: `save_profile` reports success, writes exactly `to_dict` of the
profile it was handed — whose `version` and `updated_at` are the
profile's own, unbumped — and saving the identical profile twice in a
row leaves the entire storage state of the first save unchanged
(identical document record, index, and metadata). -/
theorem C10_save_leaves_profile_unchanged (st : Storage)
    (p : ProspectProfile) :
    (save_profile st p).2 = true ∧
    assocGet p.profile_id (save_profile st p).1.docs = some (to_dict p) ∧
    (to_dict p).version = p.version ∧
    (to_dict p).updated_at = p.updated_at ∧
    (save_profile (save_profile st p).1 p).1 = (save_profile st p).1 := by
  refine ⟨rfl, ?_, rfl, rfl, ?_⟩
  · simp [save_profile, assocGet_set_self]
  · simp [save_profile, assocSet_set_self, updateIndex_idem]

end Pregame
